import Mathlib

/-!
Verification of the Kleio consumption-pattern / shopping-prediction engine
and the frontend components that consume its predictions.

The prediction core (Pattern Extractor, Confidence Classifier, Depletion
Predictor, Urgency Classifier, Prediction Aggregator) lives in the backend
service, whose Python sources are not part of this tree; those components are
modelled from the specification (sections 4.1 to 4.5) and are marked as such.
The frontend computations (sorting, counting, joining, progress bars) are
embedded directly from the React sources. Real-valued quantities are modelled
as rationals; timestamps are rational day counts.
-/

namespace Kleio

/-- Urgency bucket of a prediction. -/
inductive Urgency where
  | urgent
  | this_week
  | later
deriving DecidableEq, Repr

/-- Confidence tier of a prediction. -/
inductive Confidence where
  | low
  | medium
  | high
deriving DecidableEq, Repr

/-- Modelled from the spec: the Urgency Classifier of section 4.4, backend code
absent from the tree. `null` or a value at most 1 day maps to `urgent`, more
than 1 and at most 7 maps to `this_week`, more than 7 maps to `later`. -/
def urgencyBucket : Option ℚ → Urgency
  | none => .urgent
  | some d => if d ≤ 1 then .urgent else if d ≤ 7 then .this_week else .later

/-- Modelled from the spec: the Confidence Classifier of section 4.2, backend
code absent from the tree. Fewer than 3 samples is `low`, fewer than 5 is
`medium`, otherwise `high`. -/
def confidenceTier (sample_count : ℕ) : Confidence :=
  if sample_count < 3 then .low else if sample_count < 5 then .medium else .high

/-- Numeric rank of a confidence tier, used to state monotonicity. -/
def confRank : Confidence → ℕ
  | .low => 0
  | .medium => 1
  | .high => 2

/-- Output triple of the Depletion Predictor. -/
structure DepletionOutputs where
  depletion_date : Option ℚ
  days_until_depletion : Option ℚ
  suggested_quantity : Option ℚ
deriving DecidableEq, Repr

/-- Modelled from the spec: the Depletion Predictor of section 4.3, backend
code absent from the tree. A `null` or non-positive consumption rate yields
all-`null` outputs; otherwise days-until-depletion is stock divided by rate,
the depletion date is `now` plus that, and the suggested quantity prefers the
average purchase quantity, falling back to rate times interval. -/
def depletionPredictor (now current_stock : ℚ)
    (rate avgQty interval : Option ℚ) : DepletionOutputs :=
  match rate with
  | none => ⟨none, none, none⟩
  | some r =>
    if r ≤ 0 then ⟨none, none, none⟩
    else
      let days := current_stock / r
      { depletion_date := some (now + days)
        days_until_depletion := some days
        suggested_quantity :=
          match avgQty with
          | some q => some q
          | none =>
            match interval with
            | some i => some (r * i)
            | none => none }

/-- One intake of an item into the household (spec section 3). -/
structure AcquisitionEvent where
  quantity : ℚ
  occurred_at : ℚ
deriving DecidableEq, Repr

/-- One consumption/removal of stock (spec section 3). -/
structure DepletionEvent where
  quantity_consumed : ℚ
  occurred_at : ℚ
  days_since_acquisition : Option ℚ
deriving DecidableEq, Repr

/-- Statistical summary of one item's history (spec section 3). -/
structure ItemPattern where
  purchase_interval_days : Option ℚ
  avg_purchase_quantity : Option ℚ
  consumption_rate_per_day : Option ℚ
  sample_count : ℕ
deriving DecidableEq, Repr

/-- Arithmetic mean of a list of rationals, `none` on the empty list. -/
def mean (l : List ℚ) : Option ℚ :=
  if l.isEmpty then none else some (l.sum / l.length)

/-- Successive gaps between consecutive elements of a timestamp list. -/
def gaps : List ℚ → List ℚ
  | a :: b :: rest => (b - a) :: gaps (b :: rest)
  | _ => []

/-- Per-event consumption rate of a depletion event: defined only when
`days_since_acquisition` is known and strictly positive (spec section 4.1
step 3). -/
def validRate (d : DepletionEvent) : Option ℚ :=
  match d.days_since_acquisition with
  | some t => if 0 < t then some (d.quantity_consumed / t) else none
  | none => none

/-- Modelled from the spec: the Pattern Extractor of section 4.1, backend code
absent from the tree. Input series are ordered ascending by `occurred_at`. -/
def patternExtract (acqs : List AcquisitionEvent) (deps : List DepletionEvent) :
    ItemPattern where
  purchase_interval_days :=
    if acqs.length < 2 then none else mean (gaps (acqs.map (·.occurred_at)))
  avg_purchase_quantity := mean (acqs.map (·.quantity))
  consumption_rate_per_day := mean (deps.filterMap validRate)
  sample_count := acqs.length

/-- Event history and current stock for one item of one user. -/
structure ItemEvents where
  item_name : String
  category : String
  current_stock : ℚ
  acqs : List AcquisitionEvent
  deps : List DepletionEvent
deriving DecidableEq, Repr

/-- The derived fields of a `Prediction` row other than `last_analyzed`. -/
structure PredictionCore where
  item_name : String
  category : String
  current_stock : ℚ
  depletion_date : Option ℚ
  days_until_depletion : Option ℚ
  suggested_quantity : Option ℚ
  confidence : Confidence
  urgency : Urgency
deriving DecidableEq, Repr

/-- A persisted prediction row (spec section 3). -/
structure Prediction where
  core : PredictionCore
  last_analyzed : ℚ
deriving DecidableEq, Repr

/-- Return value of `analyze` (spec sections 4.5 and 6). -/
structure AnalyzeResult where
  items_analyzed : ℕ
  predictions_saved : ℕ
deriving DecidableEq, Repr

/-- Modelled from the spec: the per-item pipeline 4.1 to 4.4 of the Prediction
Aggregator, backend code absent from the tree. `today` is the date used for
depletion projection and `ts` the `last_analyzed` timestamp. -/
def analyzeItem (today ts : ℚ) (it : ItemEvents) : Prediction :=
  let pat := patternExtract it.acqs it.deps
  let out := depletionPredictor today it.current_stock
    pat.consumption_rate_per_day pat.avg_purchase_quantity pat.purchase_interval_days
  { core :=
      { item_name := it.item_name
        category := it.category
        current_stock := it.current_stock
        depletion_date := out.depletion_date
        days_until_depletion := out.days_until_depletion
        suggested_quantity := out.suggested_quantity
        confidence := confidenceTier pat.sample_count
        urgency := urgencyBucket out.days_until_depletion }
    last_analyzed := ts }

/-- Modelled from the spec: `analyze(user, force_refresh)` of section 4.5,
backend code absent from the tree. It recomputes one `Prediction` row per
distinct item from the event store alone and reports
`{items_analyzed, predictions_saved}`. -/
def analyze (today ts : ℚ) (store : List ItemEvents) :
    List Prediction × AnalyzeResult :=
  (store.map (analyzeItem today ts), ⟨store.length, store.length⟩)

/-- Prediction record as consumed by the frontend components
(`PatternInsights.tsx`, `PatternSummaryCards.tsx`, `InventoryListEnhanced`):
union of the fields those interfaces declare and use. -/
structure PatternPrediction where
  item_name : String
  category : String
  urgency : String
  confidence_level : String
  days_until_depletion : Option ℚ
  data_points_count : ℕ
  avg_days_between_purchases : Option ℚ
deriving DecidableEq, Repr

/-- String rendering of an urgency bucket as it appears on the wire. -/
def urgencyStr : Urgency → String
  | .urgent => "urgent"
  | .this_week => "this_week"
  | .later => "later"

/-- Colour of the per-item depletion highlight. -/
inductive Color where
  | red
  | orange
  | green
deriving DecidableEq, Repr

/-- Per-item depletion highlighting of `PatternInsights.tsx` (lines 224-228)
and `InventoryListEnhanced` (lines 623-627): red when at most 1 day remains,
orange when at most 7, green otherwise. -/
def highlightColor (d : ℚ) : Color :=
  if d ≤ 1 then .red else if d ≤ 7 then .orange else .green

/-- The colour each urgency bucket is rendered with in the frontend. -/
def colorOfUrgency : Urgency → Color
  | .urgent => .red
  | .this_week => .orange
  | .later => .green

/-- Urgency rank used by the `sortedPredictions` comparator of
`PatternInsights.tsx` (lines 137-147): unknown strings rank 3. -/
def urgencyOrder (u : String) : ℕ :=
  if u = "urgent" then 0 else if u = "this_week" then 1
  else if u = "later" then 2 else 3

/-- Sort key for `days_until_depletion`: `null` becomes positive infinity,
as in `a.days_until_depletion ?? Infinity`. -/
def daysKey : Option ℚ → WithTop ℚ
  | none => ⊤
  | some d => (d : WithTop ℚ)

/-- The total preorder realised by the `sortedPredictions` comparator of
`PatternInsights.tsx`: urgency rank first, then days-until-depletion with
`null` largest. -/
def predLe (a b : PatternPrediction) : Prop :=
  urgencyOrder a.urgency < urgencyOrder b.urgency ∨
    (urgencyOrder a.urgency = urgencyOrder b.urgency ∧
      daysKey a.days_until_depletion ≤ daysKey b.days_until_depletion)

instance : DecidableRel predLe := fun a b => by
  unfold predLe
  infer_instance

instance : IsTotal PatternPrediction predLe := by
  constructor
  intro a b
  unfold predLe
  rcases lt_trichotomy (urgencyOrder a.urgency) (urgencyOrder b.urgency) with h | h | h
  · exact Or.inl (Or.inl h)
  · rcases le_total (daysKey a.days_until_depletion) (daysKey b.days_until_depletion) with hd | hd
    · exact Or.inl (Or.inr ⟨h, hd⟩)
    · exact Or.inr (Or.inr ⟨h.symm, hd⟩)
  · exact Or.inr (Or.inl h)

instance : IsTrans PatternPrediction predLe := by
  constructor
  intro a b c hab hbc
  unfold predLe at *
  rcases hab with hab | ⟨hab, hd1⟩
  · rcases hbc with hbc | ⟨hbc, _⟩
    · exact Or.inl (hab.trans hbc)
    · exact Or.inl (hbc ▸ hab)
  · rcases hbc with hbc | ⟨hbc, hd2⟩
    · exact Or.inl (hab ▸ hbc)
    · exact Or.inr ⟨hab.trans hbc, hd1.trans hd2⟩

/-- The sorted prediction list of `PatternInsights.tsx` (lines 136-147). -/
def sortedPredictions (l : List PatternPrediction) : List PatternPrediction :=
  List.insertionSort predLe l

/-- The `itemsNeedingMoreData` list of `PatternInsights.tsx` (line 150). -/
def itemsNeedingMoreData (l : List PatternPrediction) : List PatternPrediction :=
  l.filter (fun p => p.data_points_count < 5)

/-- Urgent-bucket count of `PatternSummaryCards.tsx` (line 31). -/
def urgentCount (l : List PatternPrediction) : ℕ :=
  (l.filter (fun p => p.urgency == "urgent")).length

/-- This-week-bucket count of `PatternSummaryCards.tsx` (line 32). -/
def thisWeekCount (l : List PatternPrediction) : ℕ :=
  (l.filter (fun p => p.urgency == "this_week")).length

/-- Later-bucket count of `PatternSummaryCards.tsx` (line 33). -/
def goodCount (l : List PatternPrediction) : ℕ :=
  (l.filter (fun p => p.urgency == "later")).length

/-- Total tracked count of `PatternSummaryCards.tsx` (line 34). -/
def totalTracked (l : List PatternPrediction) : ℕ :=
  l.length

/-- High-confidence count of `PatternSummaryCards.tsx` (line 37). -/
def highConfidenceCount (l : List PatternPrediction) : ℕ :=
  (l.filter (fun p => p.confidence_level == "high")).length

/-- Pattern-health percentage of `PatternSummaryCards.tsx` (line 38):
rounded percentage of high-confidence items, 0 when nothing is tracked. -/
def patternHealth (l : List PatternPrediction) : ℤ :=
  if 0 < totalTracked l then
    round (((highConfidenceCount l : ℚ) / (totalTracked l : ℚ)) * 100)
  else 0

/-- Divisor of the stock progress-bar width of `InventoryListEnhanced`
(line 629): `avg_days_between_purchases || 7`, so `null` and `0` fall back
to 7. -/
def widthDivisor : Option ℚ → ℚ
  | none => 7
  | some a => if a = 0 then 7 else a

/-- Stock progress-bar width of `InventoryListEnhanced` (line 629):
`Math.min(100, Math.max(0, days / (avg || 7) * 100))`. -/
def progressWidth (days : ℚ) (avg : Option ℚ) : ℚ :=
  min 100 (max 0 (days / widthDivisor avg * 100))

/-- Lowercasing of an item name, the `toLowerCase()` normalisation applied on
both sides of the prediction join in `InventoryListEnhanced`. -/
def lowerName (s : String) : String :=
  String.mk (s.data.map Char.toLower)

/-- One step of building the prediction lookup `Map` of
`InventoryListEnhanced` (lines 228-231): a later entry with the same
lowercased key overwrites an earlier one. -/
def predStep (key : String) (acc : Option PatternPrediction)
    (p : PatternPrediction) : Option PatternPrediction :=
  if lowerName p.item_name == key then some p else acc

/-- Lookup in the prediction `Map` of `InventoryListEnhanced`, keyed by the
lowercased `item_name`. -/
def predictionGet (preds : List PatternPrediction) (key : String) :
    Option PatternPrediction :=
  preds.foldl (predStep key) none

/-- The join performed at `InventoryListEnhanced` line 576:
`predictionMap.get(item.item_name.toLowerCase())`. -/
def lookupForItem (preds : List PatternPrediction) (name : String) :
    Option PatternPrediction :=
  predictionGet preds (lowerName name)

/-- Claim C1: the urgency bucket is a pure function of `days_until_depletion`
with closed lower boundaries — `null` or at most 1 day is `urgent`, more than
1 and at most 7 days is `this_week`, more than 7 is `later`; in particular
exactly 1 day is `urgent` and exactly 7 days is `this_week` — and the
frontend's per-item highlighting applies the same thresholds, colouring a
value exactly as its urgency bucket. -/
theorem urgency_bucket_spec (d : ℚ) :
    urgencyBucket none = .urgent ∧
    (d ≤ 1 → urgencyBucket (some d) = .urgent) ∧
    (1 < d → d ≤ 7 → urgencyBucket (some d) = .this_week) ∧
    (7 < d → urgencyBucket (some d) = .later) ∧
    urgencyBucket (some 1) = .urgent ∧
    urgencyBucket (some 7) = .this_week ∧
    highlightColor d = colorOfUrgency (urgencyBucket (some d)) := by
  refine ⟨rfl, ?_, ?_, ?_, by norm_num [urgencyBucket], by norm_num [urgencyBucket], ?_⟩
  · intro h
    simp [urgencyBucket, h]
  · intro h1 h7
    simp [urgencyBucket, h7, not_le.mpr h1]
  · intro h7
    have h1 : (1 : ℚ) < d := lt_trans (by norm_num) h7
    simp [urgencyBucket, not_le.mpr h7, not_le.mpr h1]
  · rcases le_or_lt d 1 with h1 | h1
    · simp [highlightColor, urgencyBucket, h1, colorOfUrgency]
    · rcases le_or_lt d 7 with h7 | h7
      · simp [highlightColor, urgencyBucket, h7, not_le.mpr h1, colorOfUrgency]
      · simp [highlightColor, urgencyBucket, not_le.mpr h1, not_le.mpr h7,
          colorOfUrgency]

/-- Claim C1 witness: the boundary evaluations at 1 and 7 days via the
theorem. -/
theorem urgency_bucket_spec_witness :
    urgencyBucket (some 1) = .urgent ∧ urgencyBucket (some 7) = .this_week ∧
    highlightColor 5 = colorOfUrgency (urgencyBucket (some 5)) :=
  ⟨(urgency_bucket_spec 1).2.1 (by norm_num),
   (urgency_bucket_spec 7).2.2.1 (by norm_num) (by norm_num),
   (urgency_bucket_spec 5).2.2.2.2.2.2⟩

/-- Claim C2: the confidence tier is a pure function of the sample count —
fewer than 3 samples is `low`, at least 3 but fewer than 5 is `medium`, 5 or
more is `high` — the tier is monotonic non-decreasing in the sample count,
and an item is listed as needing more data exactly when its data-point count
is below 5, which is exactly when its tier is not `high`. -/
theorem confidence_tier_spec :
    (∀ n, n < 3 → confidenceTier n = .low) ∧
    (∀ n, 3 ≤ n → n < 5 → confidenceTier n = .medium) ∧
    (∀ n, 5 ≤ n → confidenceTier n = .high) ∧
    (∀ m n, m ≤ n → confRank (confidenceTier m) ≤ confRank (confidenceTier n)) ∧
    (∀ (l : List PatternPrediction) (p : PatternPrediction),
      p ∈ itemsNeedingMoreData l ↔ p ∈ l ∧ p.data_points_count < 5) ∧
    (∀ n, n < 5 ↔ confidenceTier n ≠ .high) := by
  refine ⟨?_, ?_, ?_, ?_, ?_, ?_⟩
  · intro n h
    simp [confidenceTier, h]
  · intro n h3 h5
    simp [confidenceTier, h5, Nat.not_lt.mpr h3]
  · intro n h5
    have h3 : 3 ≤ n := le_trans (by norm_num) h5
    simp [confidenceTier, Nat.not_lt.mpr h5, Nat.not_lt.mpr h3]
  · intro m n hmn
    unfold confidenceTier
    split_ifs <;> simp [confRank] <;> omega
  · intro l p
    simp [itemsNeedingMoreData, List.mem_filter]
  · intro n
    unfold confidenceTier
    split_ifs <;> simp <;> omega

/-- Claim C2 witness: monotonicity and the needing-more-data criterion at
concrete sample counts via the theorem. -/
theorem confidence_tier_spec_witness :
    confidenceTier 2 = .low ∧
    confRank (confidenceTier 2) ≤ confRank (confidenceTier 6) ∧
    (4 < 5 ↔ confidenceTier 4 ≠ .high) :=
  ⟨confidence_tier_spec.1 2 (by norm_num),
   confidence_tier_spec.2.2.2.1 2 6 (by norm_num),
   confidence_tier_spec.2.2.2.2.2 4⟩

/-- Claim C4: whenever the consumption rate is `null` or non-positive the
Depletion Predictor returns `null` for all three outputs and never returns a
non-null depletion date; otherwise days-until-depletion equals stock divided
by rate and the depletion date is `now` plus that many days. -/
theorem depletion_predictor_spec (now stock : ℚ) (rate avgQty interval : Option ℚ) :
    ((rate = none ∨ ∃ r, rate = some r ∧ r ≤ 0) →
      depletionPredictor now stock rate avgQty interval = ⟨none, none, none⟩) ∧
    (∀ r, rate = some r → 0 < r →
      (depletionPredictor now stock rate avgQty interval).days_until_depletion
          = some (stock / r) ∧
      (depletionPredictor now stock rate avgQty interval).depletion_date
          = some (now + stock / r)) ∧
    ((depletionPredictor now stock rate avgQty interval).depletion_date ≠ none →
      ∃ r, rate = some r ∧ 0 < r) := by
  refine ⟨?_, ?_, ?_⟩
  · rintro (h | ⟨r, hr, hle⟩)
    · simp [depletionPredictor, h]
    · simp [depletionPredictor, hr, hle]
  · intro r hr hpos
    simp [depletionPredictor, hr, not_le.mpr hpos]
  · intro hne
    match h : rate with
    | none => simp [depletionPredictor, h] at hne
    | some r =>
      refine ⟨r, rfl, ?_⟩
      by_contra hnp
      simp [depletionPredictor, not_lt.mp hnp] at hne

/-- Claim C4 witness: the null-propagation case at rate 0 and the projection
formula at stock 1 and rate one-fifth, via the theorem. -/
theorem depletion_predictor_spec_witness :
    depletionPredictor 0 3 (some 0) (some 2) none = ⟨none, none, none⟩ ∧
    (depletionPredictor 100 1 (some (1/5)) none none).days_until_depletion
        = some 5 ∧
    (depletionPredictor 100 1 (some (1/5)) none none).depletion_date
        = some 105 := by
  have h1 := (depletion_predictor_spec 0 3 (some 0) (some 2) none).1
    (Or.inr ⟨0, rfl, le_refl 0⟩)
  have h2 := (depletion_predictor_spec 100 1 (some (1/5)) none none).2.1
    (1/5) rfl (by norm_num)
  refine ⟨h1, ?_, ?_⟩
  · rw [h2.1]; norm_num
  · rw [h2.2]; norm_num

/-- Claim C5: the Pattern Extractor returns the mean of gaps between
consecutive acquisition timestamps as the purchase interval (`null` below 2
acquisitions), the mean of `quantity_consumed / days_since_acquisition` over
exactly the depletion events with a known strictly positive
`days_since_acquisition` as the consumption rate (excluded events change
nothing and cause no failure), and the acquisition count as `sample_count`;
on acquisitions of 2 at day 0 and 2 at day 10 with one depletion of 2 over
10 days it returns interval 10, rate one-fifth, average quantity 2 and
sample count 2. -/
theorem pattern_extract_spec :
    (∀ acqs deps, (patternExtract acqs deps).sample_count = acqs.length) ∧
    (∀ acqs deps, acqs.length < 2 →
      (patternExtract acqs deps).purchase_interval_days = none) ∧
    (∀ acqs deps, 2 ≤ acqs.length →
      (patternExtract acqs deps).purchase_interval_days
        = mean (gaps (acqs.map (·.occurred_at)))) ∧
    (∀ acqs deps, (patternExtract acqs deps).consumption_rate_per_day
        = mean (deps.filterMap validRate)) ∧
    (∀ acqs deps d, validRate d = none →
      patternExtract acqs (d :: deps) = patternExtract acqs deps) ∧
    patternExtract [⟨2, 0⟩, ⟨2, 10⟩] [⟨2, 10, some 10⟩]
        = ⟨some 10, some 2, some (1/5), 2⟩ := by
  refine ⟨fun acqs deps => rfl, ?_, ?_, fun acqs deps => rfl, ?_, ?_⟩
  · intro acqs deps h
    simp [patternExtract, h]
  · intro acqs deps h
    simp [patternExtract, Nat.not_lt.mpr h]
  · intro acqs deps d h
    simp [patternExtract, List.filterMap_cons, h]
  · simp [patternExtract, mean, gaps, validRate, List.filterMap_cons,
      ItemPattern.mk.injEq]
    norm_num

/-- Claim C5 witness: a malformed depletion event with a negative
`days_since_acquisition` is excluded without failing, via the theorem. -/
theorem pattern_extract_spec_witness :
    patternExtract [⟨2, 0⟩] [⟨1, 5, some (-3)⟩] = patternExtract [⟨2, 0⟩] [] :=
  pattern_extract_spec.2.2.2.2.1 [⟨2, 0⟩] [] ⟨1, 5, some (-3)⟩
    (by norm_num [validRate])

/-- Claim C6: `analyze` is idempotent — two runs over the same event store
with no new events in between produce identical `Prediction` rows except for
the `last_analyzed` field — and each invocation returns the pair
`{items_analyzed, predictions_saved}`. -/
theorem analyze_idempotent (today ts1 ts2 : ℚ) (store : List ItemEvents) :
    (analyze today ts1 store).1.map Prediction.core
        = (analyze today ts2 store).1.map Prediction.core ∧
    (analyze today ts1 store).2
        = ⟨store.length, store.length⟩ := by
  constructor
  · simp only [analyze, List.map_map]
    rfl
  · rfl

/-- Claim C7: the urgency classifier emits exactly the three wire values, and
for every prediction list whose entries carry one of the three urgency values
the three bucket counts of the dashboard partition the list: urgent plus
this-week plus later equals the total tracked count. -/
theorem urgency_partition (l : List PatternPrediction)
    (h : ∀ p ∈ l, p.urgency = "urgent" ∨ p.urgency = "this_week" ∨
      p.urgency = "later") :
    (∀ u : Urgency, urgencyStr u = "urgent" ∨ urgencyStr u = "this_week" ∨
      urgencyStr u = "later") ∧
    urgentCount l + thisWeekCount l + goodCount l = totalTracked l := by
  refine ⟨fun u => by cases u <;> simp [urgencyStr], ?_⟩
  induction l with
  | nil => rfl
  | cons a t ih =>
    have ha := h a (List.mem_cons_self a t)
    have ht : ∀ p ∈ t, p.urgency = "urgent" ∨ p.urgency = "this_week" ∨
        p.urgency = "later" := fun p hp => h p (List.mem_cons_of_mem a hp)
    have ih' := ih ht
    unfold urgentCount thisWeekCount goodCount totalTracked at ih' ⊢
    rcases ha with ha | ha | ha <;> simp [List.filter_cons, ha] <;> omega

/-- Claim C7 witness: the partition identity on a concrete two-element
prediction list via the theorem. -/
theorem urgency_partition_witness :
    urgentCount
        [⟨"milk", "dairy", "urgent", "high", some 1, 5, some 10⟩,
         ⟨"rice", "grains", "later", "low", none, 1, none⟩] +
      thisWeekCount
        [⟨"milk", "dairy", "urgent", "high", some 1, 5, some 10⟩,
         ⟨"rice", "grains", "later", "low", none, 1, none⟩] +
      goodCount
        [⟨"milk", "dairy", "urgent", "high", some 1, 5, some 10⟩,
         ⟨"rice", "grains", "later", "low", none, 1, none⟩] =
      totalTracked
        [⟨"milk", "dairy", "urgent", "high", some 1, 5, some 10⟩,
         ⟨"rice", "grains", "later", "low", none, 1, none⟩] :=
  (urgency_partition _ (by
    intro p hp
    simp only [List.mem_cons, List.not_mem_nil, or_false] at hp
    rcases hp with rfl | rfl
    · exact Or.inl rfl
    · exact Or.inr (Or.inr rfl))).2

/-- Claim C9: the dashboard's pattern-health percentage is well defined for
every prediction list — the division only happens when the tracked count is
strictly positive, the empty list yields 0, and the value is an integer
between 0 and 100 inclusive. -/
theorem pattern_health_spec (l : List PatternPrediction) :
    patternHealth [] = 0 ∧ 0 ≤ patternHealth l ∧ patternHealth l ≤ 100 := by
  refine ⟨rfl, ?_, ?_⟩
  · unfold patternHealth
    split_ifs with h
    · have hx : (0 : ℚ) ≤ (highConfidenceCount l : ℚ) / (totalTracked l : ℚ) * 100 := by
        positivity
      rw [round_eq]
      exact Int.floor_nonneg.mpr (by linarith)
    · exact le_refl 0
  · unfold patternHealth
    split_ifs with h
    · have hcnt : highConfidenceCount l ≤ totalTracked l :=
        List.length_filter_le _ l
      have hle : (highConfidenceCount l : ℚ) ≤ (totalTracked l : ℚ) := by
        exact_mod_cast hcnt
      have ht : (0 : ℚ) < (totalTracked l : ℚ) := by exact_mod_cast h
      have hx : (highConfidenceCount l : ℚ) / (totalTracked l : ℚ) ≤ 1 :=
        (div_le_one ht).mpr hle
      rw [round_eq]
      have hlt : (highConfidenceCount l : ℚ) / (totalTracked l : ℚ) * 100 + 1 / 2
          < ((101 : ℤ) : ℚ) := by
        push_cast
        nlinarith
      have hf := Int.floor_lt.mpr hlt
      omega
    · norm_num

/-- Claim C10: the stock progress-bar width is clamped to the closed range
0 to 100, the divisor falls back to 7 when `avg_days_between_purchases` is
`null` or zero, and the divisor is never zero. -/
theorem progress_width_spec (days : ℚ) (avg : Option ℚ) :
    0 ≤ progressWidth days avg ∧ progressWidth days avg ≤ 100 ∧
    widthDivisor avg ≠ 0 ∧
    ((avg = none ∨ avg = some 0) → widthDivisor avg = 7) := by
  refine ⟨?_, ?_, ?_, ?_⟩
  · exact le_min (by norm_num) (le_max_left 0 _)
  · exact min_le_left 100 _
  · match avg with
    | none => norm_num [widthDivisor]
    | some a =>
      by_cases h : a = 0 <;> simp [widthDivisor, h]
  · rintro (rfl | rfl) <;> simp [widthDivisor]

/-- Claim C10 witness: the zero-average fallback and the clamp bounds at a
concrete out-of-range input via the theorem. -/
theorem progress_width_spec_witness :
    widthDivisor (some 0) = 7 ∧ 0 ≤ progressWidth (-3) none ∧
    progressWidth 50 (some 2) ≤ 100 :=
  ⟨(progress_width_spec 50 (some 0)).2.2.2 (Or.inr rfl),
   (progress_width_spec (-3) none).1,
   (progress_width_spec 50 (some 2)).2.1⟩

/-- Claim C3: the displayed prediction list is a permutation of the fetched
one, sorted by urgency rank with `urgent` before `this_week` before `later`,
ties broken by ascending `days_until_depletion` with `null` (mapped to the
top element) last within its bucket. -/
theorem sorted_predictions_spec (l : List PatternPrediction) :
    (sortedPredictions l).Perm l ∧
    (sortedPredictions l).Sorted (fun a b =>
      urgencyOrder a.urgency ≤ urgencyOrder b.urgency ∧
        (urgencyOrder a.urgency = urgencyOrder b.urgency →
          daysKey a.days_until_depletion ≤ daysKey b.days_until_depletion)) := by
  constructor
  · exact List.perm_insertionSort predLe l
  · have hs := List.sorted_insertionSort predLe l
    exact hs.imp (fun {a b} hab => by
      rcases hab with h | ⟨h, hd⟩
      · exact ⟨le_of_lt h, fun heq => absurd (heq ▸ h) (lt_irrefl _)⟩
      · exact ⟨le_of_eq h, fun _ => hd⟩)

/-- Accumulator safety of the prediction-`Map` fold: once some entry has been
stored, the fold keeps returning some entry. -/
theorem foldl_predStep_isSome (key : String) :
    ∀ (preds : List PatternPrediction) (acc : Option PatternPrediction),
      acc.isSome = true → (preds.foldl (predStep key) acc).isSome = true := by
  intro preds
  induction preds with
  | nil => exact fun acc h => h
  | cons a t ih =>
    intro acc h
    simp only [List.foldl_cons]
    apply ih
    unfold predStep
    split_ifs
    · rfl
    · exact h

/-- Key soundness of the prediction-`Map` fold: every entry it returns has the
looked-up lowercased key. -/
theorem foldl_predStep_key (key : String) :
    ∀ (preds : List PatternPrediction) (acc : Option PatternPrediction),
      (∀ q, acc = some q → lowerName q.item_name = key) →
      ∀ q, preds.foldl (predStep key) acc = some q →
        lowerName q.item_name = key := by
  intro preds
  induction preds with
  | nil => exact fun acc hacc q hq => hacc q hq
  | cons a t ih =>
    intro acc hacc q hq
    refine ih _ ?_ q hq
    intro r hr
    unfold predStep at hr
    split_ifs at hr with hc
    · cases hr
      exact beq_iff_eq.mp hc
    · exact hacc r hr

/-- Completeness of the prediction-`Map` fold: if some prediction in the list
carries the looked-up lowercased key, the fold returns an entry. -/
theorem foldl_predStep_exists (key : String) :
    ∀ (preds : List PatternPrediction) (acc : Option PatternPrediction),
      (∃ p ∈ preds, lowerName p.item_name = key) →
      (preds.foldl (predStep key) acc).isSome = true := by
  intro preds
  induction preds with
  | nil =>
    rintro acc ⟨p, hp, _⟩
    exact absurd hp (List.not_mem_nil p)
  | cons a t ih =>
    rintro acc ⟨p, hp, hkey⟩
    simp only [List.foldl_cons]
    rcases List.mem_cons.mp hp with rfl | hpt
    · apply foldl_predStep_isSome
      simp [predStep, hkey]
    · exact ih _ ⟨p, hpt, hkey⟩

/-- Claim C8: predictions are joined to inventory rows case-insensitively on
`item_name` — the lookup map is keyed and queried with the lowercased name —
so an inventory item finds a prediction whenever some prediction's name
matches its own up to letter case, and the entry found matches the queried
key. -/
theorem case_insensitive_join (preds : List PatternPrediction)
    (p : PatternPrediction) (name : String)
    (hp : p ∈ preds) (hname : lowerName p.item_name = lowerName name) :
    ∃ q, lookupForItem preds name = some q ∧
      lowerName q.item_name = lowerName name := by
  unfold lookupForItem predictionGet
  have hs := foldl_predStep_exists (lowerName name) preds none ⟨p, hp, hname⟩
  obtain ⟨q, hq⟩ := Option.isSome_iff_exists.mp hs
  refine ⟨q, hq, ?_⟩
  refine foldl_predStep_key (lowerName name) preds none ?_ q hq
  intro r hr
  cases hr

/-- Claim C8 witness: an inventory item named `milk` is joined to the
prediction recorded as `Milk`, via the theorem. -/
theorem case_insensitive_join_witness :
    ∃ q, lookupForItem [⟨"Milk", "dairy", "urgent", "high", some 1, 5, some 10⟩]
        "milk" = some q ∧ lowerName q.item_name = lowerName "milk" :=
  case_insensitive_join _ ⟨"Milk", "dairy", "urgent", "high", some 1, 5, some 10⟩
    "milk" (List.mem_cons_self _ _) (by decide)

end Kleio
